import Mathlib

/-!
Shallow embedding of the connection race-resolution core of the `crust`
repository (files `src/event.rs` and `src/main/connection_candidate.rs`),
together with theorems settling the frozen claims about it.

Modelling conventions:
* Opaque handles (peer identity / public key, socket, endpoint, socket
  address, reactor token, reactor context, connection handle) are `Nat`.
  Peer identities are totally ordered, which is all the code uses.
* The shared `ConnectionMap` (`Arc<Mutex<HashMap<PeerId, ConnectionId>>>`)
  is threaded through every operation explicitly as a function
  `Nat → Option ConnectionId`; the single coarse lock means each operation
  sees one consistent registry value at call time.
* The reactor `Core` (token → context and context → state tables plus the
  fresh-context counter) is explicit state.
* External observable calls (socket reregistration, socket deregistration,
  non-blocking socket writes, invocations of the `finish` continuation)
  are recorded in an action trace returned by each operation.
* Fallible socket I/O is an oracle argument (`ReadResult` / `WriteResult`)
  standing for the outcome of the one non-blocking call the code makes.
* A Rust panic (`Option::unwrap` / `Option::expect` on `None`) is
  modelled as `Except.error`; a panicking run aborts, so the model
  discards whatever effects were in flight.
-/

namespace Crust

/-- Readiness bits of a `mio::EventSet`, as queried by the code
(`is_readable` / `is_writable` / `is_error` / `is_hup`). -/
structure EventSet where
  readable : Bool
  writable : Bool
  error : Bool
  hup : Bool
deriving DecidableEq, Repr

/-- The interest mask `EventSet::writable() | EventSet::error() | EventSet::hup()`
used by `ConnectionCandidate::start`. -/
def EventSet.writableErrorHup : EventSet :=
  { readable := false, writable := true, error := true, hup := true }

/-- The handshake message type.  The code only distinguishes
`Message::ChooseConnection` from every other variant
(`Ok(Some(Message::ChooseConnection))` versus `Ok(Some(_))`), so all other
variants of the real enum are collapsed into one tagged constructor. -/
inductive Message where
  | ChooseConnection : Message
  | OtherVariant : Nat → Message
deriving DecidableEq, Repr

/-- Outcome of the one non-blocking framed read
(`Socket::read::<Message>() : Res<Option<Message>>`):
`Ok(Some(m))`, `Ok(None)` (no complete message yet), or `Err(_)`. -/
inductive ReadResult where
  | msg : Message → ReadResult
  | noneYet : ReadResult
  | err : ReadResult
deriving DecidableEq, Repr

/-- Outcome of the one non-blocking framed write
(`Socket::write(...) : Res<bool>`): `Ok(true)` (fully written),
`Ok(false)` (would block, resumed by the reactor), or `Err(_)`. -/
inductive WriteResult where
  | complete : WriteResult
  | blocked : WriteResult
  | err : WriteResult
deriving DecidableEq, Repr

/-- Externally observable calls made by a candidate, in program order. -/
inductive Action where
  | reregister : Nat → EventSet → Action
  | deregister : Nat → Action
  | socketWrite : Nat → Option (Message × Nat) → Action
  | finishCall : Nat → Option (Nat × Nat) → Action
deriving DecidableEq, Repr

/-- Per-peer registry entry (`main::ConnectionId`): the number of
candidates currently racing for the peer and the active connection, if a
candidate has already won. -/
structure ConnectionId where
  currently_handshaking : Nat
  active_connection : Option Nat
deriving DecidableEq, Repr

/-- The shared registry `ConnectionMap`, one consistent snapshot per
lock acquisition: peer identity to entry. -/
abbrev ConnMap : Type := Nat → Option ConnectionId

/-- Pointwise update of a lookup table. -/
def setMap {α : Type} (f : Nat → Option α) (k : Nat) (v : Option α) :
    Nat → Option α :=
  fun k2 => if k2 = k then v else f k2

/-- The per-socket state machine `ConnectionCandidate`.  The Rust struct
also holds the shared `cm` handle and the boxed `finish` closure; here the
registry is threaded as explicit state and `finish` invocations are trace
actions, so neither needs a field. -/
structure ConnectionCandidate where
  token : Nat
  context : Nat
  their_id : Nat
  socket : Option Nat
  msg : Option (Message × Nat)
deriving DecidableEq, Repr

/-- The reactor-side registries of `common::Core` used by the candidate:
`insert_context`/`remove_context` (token → context),
`insert_state`/`remove_state` (context → state), and the fresh-context
counter behind `get_new_context`. -/
structure Core where
  next_context : Nat
  contexts : Nat → Option Nat
  states : Nat → Option ConnectionCandidate

/-- The pair `core.remove_context(self.token); core.remove_state(self.context)`
performed by both `done` and `terminate`. -/
def coreAfterRemoval (self : ConnectionCandidate) (core : Core) : Core :=
  { core with contexts := setMap core.contexts self.token none,
              states := setMap core.states self.context none }

/-- The registry lookup the write path performs under the lock
(`self.cm.lock().unwrap().get(&self.their_id)` matched against
`Some(&ConnectionId { active_connection: Some(_), .. })`), i.e. the
Registry's `has_active` question. -/
def hasActive (cm : ConnMap) (peer : Nat) : Bool :=
  match cm peer with
  | some e => e.active_connection.isSome
  | none => false

/-- The registry block of `terminate`: if the peer's entry is occupied,
decrement `currently_handshaking` and remove the entry when the counter
reaches zero with no active connection recorded.
(`currently_handshaking -= 1` is a `usize` decrement; truncated `Nat`
subtraction models it, and every theorem relying on the decrement assumes
the counter is positive.) -/
def endHandshakeUpdate (cm : ConnMap) (peer : Nat) : ConnMap :=
  match cm peer with
  | none => cm
  | some e =>
      if e.currently_handshaking - 1 = 0 ∧ e.active_connection = none
      then setMap cm peer none
      else setMap cm peer
             (some { currently_handshaking := e.currently_handshaking - 1,
                     active_connection := e.active_connection })

/-- Result of one successful (non-panicking) candidate operation: the
updated candidate, reactor core and registry, and the trace of observable
calls it made. -/
structure StepOk where
  cand : ConnectionCandidate
  core : Core
  cm : ConnMap
  trace : List Action

/-- A candidate operation either panics (Rust `unwrap`/`expect` on `None`)
or yields a `StepOk`. -/
abbrev StepRes : Type := Except String StepOk

namespace ConnectionCandidate

/-- Translation of `ConnectionCandidate::done`: remove the token → context and
context → state entries from the core, take the socket out of its slot
(`expect("Logic Error")` — panics if already moved out) and invoke the
completion continuation with `Some((socket, token))`.  The registry `cm`
is not touched. -/
def done (self : ConnectionCandidate) (core : Core) (cm : ConnMap) : StepRes :=
  let core1 : Core := coreAfterRemoval self core
  match self.socket with
  | none => .error "Logic Error"
  | some s =>
      .ok { cand := { self with socket := none },
            core := core1,
            cm := cm,
            trace := [Action.finishCall self.context (some (s, self.token))] }

/-- Translation of `ConnectionCandidate::terminate` (from the `State` impl): remove the
core entries, deregister the socket from the event loop after taking it
out of its slot (`expect("Logic Error")` — panics if already moved out),
then under the registry lock decrement the peer's handshake counter if an
entry is occupied, removing the entry when the counter reaches zero with
no active connection.  (`currently_handshaking -= 1` is a `usize`
decrement; truncated `Nat` subtraction models it, and every theorem that
relies on the decrement assumes the counter is positive.) -/
def terminate (self : ConnectionCandidate) (core : Core) (cm : ConnMap) :
    StepRes :=
  let core1 : Core := coreAfterRemoval self core
  match self.socket with
  | none => .error "Logic Error"
  | some s =>
      .ok { cand := { self with socket := none },
            core := core1,
            cm := endHandshakeUpdate cm self.their_id,
            trace := [Action.deregister s] }

/-- Translation of `ConnectionCandidate::handle_error`: `terminate`, then invoke the
completion continuation with `None`. -/
def handle_error (self : ConnectionCandidate) (core : Core) (cm : ConnMap) :
    StepRes :=
  match terminate self core cm with
  | .error e => .error e
  | .ok r => .ok { r with trace := r.trace ++ [Action.finishCall self.context none] }

/-- Translation of `ConnectionCandidate::read`: one non-blocking framed read on the
socket (`as_mut().unwrap()` — panics if the socket was moved out).
`ChooseConnection` goes to `done`, any other message or a read error goes
to `handle_error`, no complete message leaves everything unchanged. -/
def read (self : ConnectionCandidate) (core : Core) (cm : ConnMap)
    (rr : ReadResult) : StepRes :=
  match self.socket with
  | none => .error "called Option::unwrap on a None value"
  | some _ =>
      match rr with
      | .msg Message.ChooseConnection => done self core cm
      | .msg (Message.OtherVariant _) => handle_error self core cm
      | .err => handle_error self core cm
      | .noneYet => .ok { cand := self, core := core, cm := cm, trace := [] }

/-- Translation of `ConnectionCandidate::write`: under the registry lock, look up the
peer's entry at write time; if it records an active connection, abort via
`handle_error` without writing.  Otherwise one non-blocking write of the
taken message (`as_mut().unwrap()` — panics if the socket was moved out):
fully written goes to `done`, would-block leaves everything unchanged,
a write error goes to `handle_error`. -/
def write (self : ConnectionCandidate) (core : Core) (cm : ConnMap)
    (msgp : Option (Message × Nat)) (wr : WriteResult) : StepRes :=
  if hasActive cm self.their_id then handle_error self core cm
  else
    match self.socket with
    | none => .error "called Option::unwrap on a None value"
    | some _ =>
        match wr with
        | .complete =>
            match done self core cm with
            | .error e => .error e
            | .ok r => .ok { r with trace := Action.socketWrite self.token msgp :: r.trace }
        | .blocked =>
            .ok { cand := self, core := core, cm := cm,
                  trace := [Action.socketWrite self.token msgp] }
        | .err =>
            match handle_error self core cm with
            | .error e => .error e
            | .ok r => .ok { r with trace := Action.socketWrite self.token msgp :: r.trace }

/-- Translation of `ConnectionCandidate::ready` (from the `State` impl): error or hang-up
goes straight to `handle_error`; otherwise a readable bit triggers `read`,
and then (no early return) a writable bit takes the pending message and
triggers `write`. -/
def ready (self : ConnectionCandidate) (core : Core) (cm : ConnMap)
    (es : EventSet) (rr : ReadResult) (wr : WriteResult) : StepRes :=
  if es.error || es.hup then handle_error self core cm
  else
    let step1 : StepRes :=
      if es.readable then read self core cm rr
      else .ok { cand := self, core := core, cm := cm, trace := [] }
    match step1 with
    | .error e => .error e
    | .ok r1 =>
        if es.writable then
          let msgp := r1.cand.msg
          let self1 : ConnectionCandidate := { r1.cand with msg := none }
          match write self1 r1.core r1.cm msgp wr with
          | .error e => .error e
          | .ok r2 => .ok { r2 with trace := r1.trace ++ r2.trace }
        else .ok r1

end ConnectionCandidate

/-- Result of a successful `ConnectionCandidate::start`: the fresh context
it returns, the updated reactor core, the (untouched) registry and the
trace of reactor calls it made. -/
structure StartOk where
  context : Nat
  core : Core
  cm : ConnMap
  trace : List Action

/-- A `start` either fails (a propagated reregistration error) or yields a
`StartOk`. -/
abbrev StartRes : Type := Except Unit StartOk

/-- The reactor-core effect of a successful `start`: allocate the fresh
context (`get_new_context`), build the candidate with the socket in its
slot and the single pending `(Message::ChooseConnection, 0)` message, and
insert it into the token → context and context → state tables. -/
def coreAfterStart (core : Core) (token socket their_id : Nat) : Core :=
  { next_context := core.next_context + 1,
    contexts := setMap core.contexts token (some core.next_context),
    states := setMap core.states core.next_context
      (some { token := token, context := core.next_context,
              their_id := their_id, socket := some socket,
              msg := some (Message.ChooseConnection, 0) }) }

namespace ConnectionCandidate

/-- Translation of `ConnectionCandidate::start`: when the local identity is greater than
the remote one, reregister the socket for write-readiness plus error and
hang-up (`try!` propagates a reregistration failure, modelled by the
`reregOk` oracle); then allocate a fresh context, build the candidate with
the socket in its slot and the single pending
`(Message::ChooseConnection, 0)` message, and insert it into the core's
token → context and context → state tables.  The registry `cm` is not
touched. -/
def start (core : Core) (token : Nat) (socket : Nat) (cm : ConnMap)
    (our_id their_id : Nat) (reregOk : Bool) : StartRes :=
  let rereg : Except Unit (List Action) :=
    if our_id > their_id then
      if reregOk then .ok [Action.reregister token EventSet.writableErrorHup]
      else .error ()
    else .ok []
  match rereg with
  | .error e => .error e
  | .ok tr =>
      .ok { context := core.next_context,
            core := coreAfterStart core token socket their_id,
            cm := cm, trace := tr }

end ConnectionCandidate

/-- Holds exactly on completion-continuation invocations. -/
def Action.isFinish : Action → Bool
  | .finishCall _ _ => true
  | _ => false

/-- Number of completion-continuation invocations in a trace. -/
def countFinish (tr : List Action) : Nat :=
  (tr.filter Action.isFinish).length

/- Total projections out of operation results, used to state concrete
(binder-free) facts about concrete runs.  A panicking run has an empty
trace and dummy components. -/

/-- Tests that the run did not panic. -/
def StepRes.isOk : StepRes → Bool
  | .ok _ => true
  | .error _ => false

/-- Tests that the run panicked (`unwrap`/`expect` on `None`). -/
def StepRes.isPanic : StepRes → Bool
  | .ok _ => false
  | .error _ => true

/-- Trace of observable calls of a run. -/
def StepRes.traceOf : StepRes → List Action
  | .ok r => r.trace
  | .error _ => []

/-- Registry entry for a peer after a run. -/
def StepRes.cmAt : StepRes → Nat → Option ConnectionId
  | .ok r, p => r.cm p
  | .error _, _ => none

/-- The candidate after a run (dummy on panic). -/
def StepRes.candOf : StepRes → ConnectionCandidate
  | .ok r => r.cand
  | .error _ =>
      { token := 0, context := 0, their_id := 0, socket := none, msg := none }

/-- The reactor core after a run (dummy on panic). -/
def StepRes.coreOf : StepRes → Core
  | .ok r => r.core
  | .error _ => { next_context := 0, contexts := fun _ => none, states := fun _ => none }

/-- The registry after a run (dummy on panic). -/
def StepRes.cmOf : StepRes → ConnMap
  | .ok r => r.cm
  | .error _ => fun _ => none

/-- Tests that `start` succeeded. -/
def StartRes.isOk : StartRes → Bool
  | .ok _ => true
  | .error _ => false

/-- Trace of reactor calls of a `start`. -/
def StartRes.traceOf : StartRes → List Action
  | .ok r => r.trace
  | .error _ => []

/-- Registry entry for a peer after a `start`. -/
def StartRes.cmAt : StartRes → Nat → Option ConnectionId
  | .ok r, p => r.cm p
  | .error _, _ => none

/- Concrete sample values used by witnesses and counterexamples. -/

/-- A candidate in `Negotiating`: token 1, context 2, racing for peer 3,
socket 4 still in its slot, pending handshake-acceptance message. -/
def cand0 : ConnectionCandidate :=
  { token := 1, context := 2, their_id := 3, socket := some 4,
    msg := some (Message.ChooseConnection, 0) }

/-- A reactor core holding only `cand0`. -/
def core0 : Core :=
  { next_context := 5,
    contexts := setMap (fun _ => none) 1 (some 2),
    states := setMap (fun _ => none) 2 (some cand0) }

/-- The empty registry. -/
def cmEmpty : ConnMap := fun _ => none

/-- Registry with one racing candidate for peer 3 and no active
connection. -/
def cmOne : ConnMap :=
  fun p => if p = 3 then some { currently_handshaking := 1, active_connection := none }
           else none

/-- Registry where peer 3 already has an active connection (handle 9)
while one candidate is still racing. -/
def cmActive : ConnMap :=
  fun p => if p = 3 then some { currently_handshaking := 1, active_connection := some 9 }
           else none

/- ### Contact info model (`src/event.rs`) -/

/-- Translation of `OurContactInfo`: locally generated contact info holding the live
mapped UDP socket, the rendezvous secret (`Option<[u8; 4]>`), our TCP
listening endpoints, the mapped addresses of the UDP socket, and our
public key. -/
structure OurContactInfo where
  socket : Nat
  secret : Option (Nat × Nat × Nat × Nat)
  static_addrs : List Nat
  rendezvous_addrs : List Nat
  pub_key : Nat
deriving DecidableEq, Repr

/-- Translation of `TheirContactInfo`: the transmissible counterpart, with the same
secret/address/identity fields and no socket field. -/
structure TheirContactInfo where
  secret : Option (Nat × Nat × Nat × Nat)
  static_addrs : List Nat
  rendezvous_addrs : List Nat
  pub_key : Nat
deriving DecidableEq, Repr

/-- Translation of `OurContactInfo::make_their_info`: clone the secret and both address
lists and copy the public key, dropping the socket. -/
def OurContactInfo.make_their_info (self : OurContactInfo) : TheirContactInfo :=
  { secret := self.secret,
    static_addrs := self.static_addrs,
    rendezvous_addrs := self.rendezvous_addrs,
    pub_key := self.pub_key }

/-!  Theorems settling the claims, with the shared unfolding and
inversion lemmas they build on. -/

theorem done_eq (cand : ConnectionCandidate) (core : Core) (cm : ConnMap)
    (s : Nat) (hs : cand.socket = some s) :
    cand.done core cm =
      .ok { cand := { cand with socket := none },
            core := coreAfterRemoval cand core,
            cm := cm,
            trace := [Action.finishCall cand.context (some (s, cand.token))] } := by
  simp only [ConnectionCandidate.done, hs]

theorem terminate_eq (cand : ConnectionCandidate) (core : Core) (cm : ConnMap)
    (s : Nat) (hs : cand.socket = some s) :
    cand.terminate core cm =
      .ok { cand := { cand with socket := none },
            core := coreAfterRemoval cand core,
            cm := endHandshakeUpdate cm cand.their_id,
            trace := [Action.deregister s] } := by
  simp only [ConnectionCandidate.terminate, hs]

theorem terminate_none (cand : ConnectionCandidate) (core : Core) (cm : ConnMap)
    (hs : cand.socket = none) :
    cand.terminate core cm = .error "Logic Error" := by
  simp only [ConnectionCandidate.terminate, hs]

theorem handle_error_eq (cand : ConnectionCandidate) (core : Core) (cm : ConnMap)
    (s : Nat) (hs : cand.socket = some s) :
    cand.handle_error core cm =
      .ok { cand := { cand with socket := none },
            core := coreAfterRemoval cand core,
            cm := endHandshakeUpdate cm cand.their_id,
            trace := [Action.deregister s, Action.finishCall cand.context none] } := by
  simp only [ConnectionCandidate.handle_error, terminate_eq cand core cm s hs,
    List.cons_append, List.nil_append]

theorem read_choose_eq (cand : ConnectionCandidate) (core : Core) (cm : ConnMap)
    (s : Nat) (hs : cand.socket = some s) :
    cand.read core cm (ReadResult.msg Message.ChooseConnection) = cand.done core cm := by
  simp only [ConnectionCandidate.read, hs]

theorem read_other_eq (cand : ConnectionCandidate) (core : Core) (cm : ConnMap)
    (s t : Nat) (hs : cand.socket = some s) :
    cand.read core cm (ReadResult.msg (Message.OtherVariant t)) =
      cand.handle_error core cm := by
  simp only [ConnectionCandidate.read, hs]

theorem read_err_eq (cand : ConnectionCandidate) (core : Core) (cm : ConnMap)
    (s : Nat) (hs : cand.socket = some s) :
    cand.read core cm ReadResult.err = cand.handle_error core cm := by
  simp only [ConnectionCandidate.read, hs]

theorem read_noneYet_eq (cand : ConnectionCandidate) (core : Core) (cm : ConnMap)
    (s : Nat) (hs : cand.socket = some s) :
    cand.read core cm ReadResult.noneYet =
      .ok { cand := cand, core := core, cm := cm, trace := [] } := by
  simp only [ConnectionCandidate.read, hs]

theorem write_active_eq (cand : ConnectionCandidate) (core : Core) (cm : ConnMap)
    (msgp : Option (Message × Nat)) (wr : WriteResult)
    (hact : hasActive cm cand.their_id = true) :
    cand.write core cm msgp wr = cand.handle_error core cm := by
  simp only [ConnectionCandidate.write, hact, if_true]

theorem write_err_eq (cand : ConnectionCandidate) (core : Core) (cm : ConnMap)
    (msgp : Option (Message × Nat)) (s : Nat) (hs : cand.socket = some s)
    (hact : hasActive cm cand.their_id = false) :
    cand.write core cm msgp WriteResult.err =
      .ok { cand := { cand with socket := none },
            core := coreAfterRemoval cand core,
            cm := endHandshakeUpdate cm cand.their_id,
            trace := [Action.socketWrite cand.token msgp, Action.deregister s,
                      Action.finishCall cand.context none] } := by
  simp only [ConnectionCandidate.write, hact, hs, Bool.false_eq_true, if_false,
    handle_error_eq cand core cm s hs]

theorem write_complete_eq (cand : ConnectionCandidate) (core : Core) (cm : ConnMap)
    (msgp : Option (Message × Nat)) (s : Nat) (hs : cand.socket = some s)
    (hact : hasActive cm cand.their_id = false) :
    cand.write core cm msgp WriteResult.complete =
      .ok { cand := { cand with socket := none },
            core := coreAfterRemoval cand core,
            cm := cm,
            trace := [Action.socketWrite cand.token msgp,
                      Action.finishCall cand.context (some (s, cand.token))] } := by
  simp only [ConnectionCandidate.write, hact, hs, Bool.false_eq_true, if_false,
    done_eq cand core cm s hs]

theorem write_blocked_eq (cand : ConnectionCandidate) (core : Core) (cm : ConnMap)
    (msgp : Option (Message × Nat)) (s : Nat) (hs : cand.socket = some s)
    (hact : hasActive cm cand.their_id = false) :
    cand.write core cm msgp WriteResult.blocked =
      .ok { cand := cand, core := core, cm := cm,
            trace := [Action.socketWrite cand.token msgp] } := by
  simp only [ConnectionCandidate.write, hact, hs, Bool.false_eq_true, if_false]

theorem write_none_sock (cand : ConnectionCandidate) (core : Core) (cm : ConnMap)
    (msgp : Option (Message × Nat)) (wr : WriteResult)
    (hs : cand.socket = none) :
    (cand.write core cm msgp wr).isPanic = true := by
  by_cases hact : hasActive cm cand.their_id
  · simp only [ConnectionCandidate.write, hact, if_true,
      ConnectionCandidate.handle_error, terminate_none cand core cm hs, StepRes.isPanic]
  · simp only [ConnectionCandidate.write, hact, Bool.false_eq_true, if_false, hs,
      StepRes.isPanic]

theorem ready_errhup_eq (cand : ConnectionCandidate) (core : Core) (cm : ConnMap)
    (es : EventSet) (rr : ReadResult) (wr : WriteResult)
    (hmask : (es.error || es.hup) = true) :
    cand.ready core cm es rr wr = cand.handle_error core cm := by
  simp only [ConnectionCandidate.ready, hmask, if_true]

theorem handle_error_none (cand : ConnectionCandidate) (core : Core) (cm : ConnMap)
    (hs : cand.socket = none) :
    cand.handle_error core cm = .error "Logic Error" := by
  simp only [ConnectionCandidate.handle_error, terminate_none cand core cm hs]

theorem countFinish_append (a b : List Action) :
    countFinish (a ++ b) = countFinish a + countFinish b := by
  simp [countFinish, List.filter_append]

theorem done_ok_inv (cand : ConnectionCandidate) (core : Core) (cm : ConnMap)
    (r : StepOk) (h : cand.done core cm = .ok r) :
    r.cand.socket = none ∧ countFinish r.trace = 1 := by
  cases hs : cand.socket with
  | none => simp [ConnectionCandidate.done, hs] at h
  | some s =>
      rw [done_eq cand core cm s hs] at h
      simp only [Except.ok.injEq] at h
      subst h
      exact ⟨rfl, rfl⟩

theorem handle_error_ok_inv (cand : ConnectionCandidate) (core : Core) (cm : ConnMap)
    (r : StepOk) (h : cand.handle_error core cm = .ok r) :
    r.cand.socket = none ∧ countFinish r.trace = 1 := by
  cases hs : cand.socket with
  | none => rw [handle_error_none cand core cm hs] at h; exact absurd h (by simp)
  | some s =>
      rw [handle_error_eq cand core cm s hs] at h
      simp only [Except.ok.injEq] at h
      subst h
      exact ⟨rfl, rfl⟩

theorem read_ok_inv (cand : ConnectionCandidate) (core : Core) (cm : ConnMap)
    (rr : ReadResult) (r : StepOk) (h : cand.read core cm rr = .ok r) :
    (r = { cand := cand, core := core, cm := cm, trace := [] } ∧
       countFinish r.trace = 0) ∨
    (r.cand.socket = none ∧ countFinish r.trace = 1) := by
  cases hs : cand.socket with
  | none => simp [ConnectionCandidate.read, hs] at h
  | some s =>
      cases rr with
      | msg m =>
          cases m with
          | ChooseConnection =>
              rw [read_choose_eq cand core cm s hs] at h
              exact Or.inr (done_ok_inv cand core cm r h)
          | OtherVariant t =>
              rw [read_other_eq cand core cm s t hs] at h
              exact Or.inr (handle_error_ok_inv cand core cm r h)
      | noneYet =>
          rw [read_noneYet_eq cand core cm s hs] at h
          simp only [Except.ok.injEq] at h
          subst h
          exact Or.inl ⟨rfl, rfl⟩
      | err =>
          rw [read_err_eq cand core cm s hs] at h
          exact Or.inr (handle_error_ok_inv cand core cm r h)

theorem write_ok_inv (cand : ConnectionCandidate) (core : Core) (cm : ConnMap)
    (msgp : Option (Message × Nat)) (wr : WriteResult) (r : StepOk)
    (h : cand.write core cm msgp wr = .ok r) :
    countFinish r.trace ≤ 1 := by
  cases hact : hasActive cm cand.their_id with
  | true =>
      rw [write_active_eq cand core cm msgp wr hact] at h
      exact le_of_eq (handle_error_ok_inv cand core cm r h).2
  | false =>
      cases hs : cand.socket with
      | none =>
          have hp := write_none_sock cand core cm msgp wr hs
          rw [h] at hp
          simp [StepRes.isPanic] at hp
      | some s =>
          cases wr with
          | complete =>
              rw [write_complete_eq cand core cm msgp s hs hact] at h
              simp only [Except.ok.injEq] at h
              subst h
              simp [countFinish, Action.isFinish]
          | blocked =>
              rw [write_blocked_eq cand core cm msgp s hs hact] at h
              simp only [Except.ok.injEq] at h
              subst h
              simp [countFinish, Action.isFinish]
          | err =>
              rw [write_err_eq cand core cm msgp s hs hact] at h
              simp only [Except.ok.injEq] at h
              subst h
              simp [countFinish, Action.isFinish]

theorem ready_finish_le_one (cand : ConnectionCandidate) (core : Core) (cm : ConnMap)
    (es : EventSet) (rr : ReadResult) (wr : WriteResult) (r : StepOk)
    (h : cand.ready core cm es rr wr = .ok r) :
    countFinish r.trace ≤ 1 := by
  cases hmask : (es.error || es.hup) with
  | true =>
      rw [ready_errhup_eq cand core cm es rr wr hmask] at h
      exact le_of_eq (handle_error_ok_inv cand core cm r h).2
  | false =>
      simp only [ConnectionCandidate.ready, hmask, Bool.false_eq_true, if_false] at h
      cases hread : es.readable with
      | false =>
          simp only [hread, Bool.false_eq_true, if_false] at h
          cases hwrit : es.writable with
          | false =>
              simp only [hwrit, Bool.false_eq_true, if_false] at h
              simp only [Except.ok.injEq] at h
              subst h
              simp [countFinish]
          | true =>
              simp only [hwrit, if_true] at h
              cases hw : ConnectionCandidate.write
                  { cand with msg := none } core cm cand.msg wr with
              | error e => simp only [hw] at h; exact Except.noConfusion h
              | ok r2 =>
                  simp only [hw, Except.ok.injEq] at h
                  subst h
                  simpa [countFinish_append, countFinish] using
                    write_ok_inv { cand with msg := none } core cm cand.msg wr r2 hw
      | true =>
          simp only [hread, if_true] at h
          cases hrd : cand.read core cm rr with
          | error e => simp only [hrd] at h; exact Except.noConfusion h
          | ok r1 =>
              simp only [hrd] at h
              cases hwrit : es.writable with
              | false =>
                  simp only [hwrit, Bool.false_eq_true, if_false] at h
                  simp only [Except.ok.injEq] at h
                  subst h
                  rcases read_ok_inv cand core cm rr r1 hrd with ⟨_, hc⟩ | ⟨_, hc⟩ <;> omega
              | true =>
                  simp only [hwrit, if_true] at h
                  rcases read_ok_inv cand core cm rr r1 hrd with ⟨hr1, hc⟩ | ⟨hsock, hc⟩
                  · cases hw : ConnectionCandidate.write
                        { r1.cand with msg := none } r1.core r1.cm r1.cand.msg wr with
                    | error e => simp only [hw] at h; exact Except.noConfusion h
                    | ok r2 =>
                        simp only [hw, Except.ok.injEq] at h
                        subst h
                        have h2 := write_ok_inv { r1.cand with msg := none }
                          r1.core r1.cm r1.cand.msg wr r2 hw
                        simp only [countFinish_append]
                        omega
                  · have hp := write_none_sock { r1.cand with msg := none }
                      r1.core r1.cm r1.cand.msg wr (by simpa using hsock)
                    cases hw : ConnectionCandidate.write
                        { r1.cand with msg := none } r1.core r1.cm r1.cand.msg wr with
                    | error e => simp only [hw] at h; exact Except.noConfusion h
                    | ok r2 => rw [hw] at hp; simp [StepRes.isPanic] at hp

theorem ready_readable_eq (cand : ConnectionCandidate) (core : Core) (cm : ConnMap)
    (rr : ReadResult) (wr : WriteResult) :
    cand.ready core cm
        { readable := true, writable := false, error := false, hup := false } rr wr =
      cand.read core cm rr := by
  cases hrd : cand.read core cm rr with
  | error e => simp [ConnectionCandidate.ready, hrd]
  | ok r1 => simp [ConnectionCandidate.ready, hrd]

theorem ready_writable_eq (cand : ConnectionCandidate) (core : Core) (cm : ConnMap)
    (rr : ReadResult) (wr : WriteResult) :
    cand.ready core cm
        { readable := false, writable := true, error := false, hup := false } rr wr =
      ConnectionCandidate.write { cand with msg := none } core cm cand.msg wr := by
  cases hw : ConnectionCandidate.write { cand with msg := none } core cm cand.msg wr with
  | error e => simp [ConnectionCandidate.ready, hw]
  | ok r2 => simp [ConnectionCandidate.ready, hw]

theorem start_gt_eq (core : Core) (token socket : Nat) (cm : ConnMap)
    (our_id their_id : Nat) (hgt : their_id < our_id) :
    ConnectionCandidate.start core token socket cm our_id their_id true =
      .ok { context := core.next_context,
            core := coreAfterStart core token socket their_id,
            cm := cm,
            trace := [Action.reregister token EventSet.writableErrorHup] } := by
  simp [ConnectionCandidate.start, hgt]

theorem start_gt_fail (core : Core) (token socket : Nat) (cm : ConnMap)
    (our_id their_id : Nat) (hgt : their_id < our_id) :
    ConnectionCandidate.start core token socket cm our_id their_id false =
      .error () := by
  simp [ConnectionCandidate.start, hgt]

theorem start_le_eq (core : Core) (token socket : Nat) (cm : ConnMap)
    (our_id their_id : Nat) (hle : ¬ their_id < our_id) (reregOk : Bool) :
    ConnectionCandidate.start core token socket cm our_id their_id reregOk =
      .ok { context := core.next_context,
            core := coreAfterStart core token socket their_id,
            cm := cm,
            trace := [] } := by
  simp [ConnectionCandidate.start, hle]

/- ### Claim theorems -/

/-- Claim C9: `make_their_info` is a total pure projection (always
succeeds, no effect on its argument), its result is field-wise equal to
the source on secret, static address list, rendezvous address list and
identity, and it does not depend on the live local socket — which the
resulting `TheirContactInfo` cannot carry. -/
theorem C9_make_their_info_projection (our : OurContactInfo) :
    our.make_their_info.secret = our.secret ∧
    our.make_their_info.static_addrs = our.static_addrs ∧
    our.make_their_info.rendezvous_addrs = our.rendezvous_addrs ∧
    our.make_their_info.pub_key = our.pub_key ∧
    (∀ s2 : Nat,
       ({ our with socket := s2 } : OurContactInfo).make_their_info =
         our.make_their_info) :=
  ⟨rfl, rfl, rfl, rfl, fun _ => rfl⟩

/-- Claim C8: for a candidate in `Negotiating` (socket still in its slot),
a readable event performs one non-blocking framed read with exactly three
outcomes: a decoded `ChooseConnection` marker takes the success path
(`done`); any other decoded message, like a decode error, takes the
failure path (deregistration plus continuation invoked with `none`); and
an incomplete message leaves candidate, reactor core and registry
unchanged. -/
theorem C8_read_trichotomy (cand : ConnectionCandidate) (core : Core)
    (cm : ConnMap) (s : Nat) (hs : cand.socket = some s) :
    (cand.read core cm (ReadResult.msg Message.ChooseConnection) =
        cand.done core cm ∧
      cand.done core cm =
        .ok { cand := { cand with socket := none },
              core := coreAfterRemoval cand core, cm := cm,
              trace := [Action.finishCall cand.context (some (s, cand.token))] }) ∧
    (∀ t, cand.read core cm (ReadResult.msg (Message.OtherVariant t)) =
        .ok { cand := { cand with socket := none },
              core := coreAfterRemoval cand core,
              cm := endHandshakeUpdate cm cand.their_id,
              trace := [Action.deregister s, Action.finishCall cand.context none] }) ∧
    (cand.read core cm ReadResult.err =
        .ok { cand := { cand with socket := none },
              core := coreAfterRemoval cand core,
              cm := endHandshakeUpdate cm cand.their_id,
              trace := [Action.deregister s, Action.finishCall cand.context none] }) ∧
    cand.read core cm ReadResult.noneYet =
      .ok { cand := cand, core := core, cm := cm, trace := [] } := by
  refine ⟨⟨read_choose_eq cand core cm s hs, done_eq cand core cm s hs⟩,
    ?_, ?_, read_noneYet_eq cand core cm s hs⟩
  · intro t
    rw [read_other_eq cand core cm s t hs, handle_error_eq cand core cm s hs]
  · rw [read_err_eq cand core cm s hs, handle_error_eq cand core cm s hs]

/-- Claim C8 witness: the trichotomy evaluated on a concrete candidate. -/
theorem C8_witness :
    cand0.read core0 cmOne (ReadResult.msg Message.ChooseConnection) =
      cand0.done core0 cmOne ∧
    (cand0.read core0 cmOne (ReadResult.msg (Message.OtherVariant 7))).traceOf =
      [Action.deregister 4, Action.finishCall 2 none] ∧
    (cand0.read core0 cmOne ReadResult.err).isOk = true ∧
    cand0.read core0 cmOne ReadResult.noneYet =
      .ok { cand := cand0, core := core0, cm := cmOne, trace := [] } := by
  have h := C8_read_trichotomy cand0 core0 cmOne 4 rfl
  refine ⟨h.1.1, ?_, ?_, h.2.2.2⟩
  · rw [h.2.1 7]; rfl
  · rw [h.2.2.1]; rfl

/-- Claim C10 (implicit): the supersession check happens only on the write
path.  A candidate whose readable event decodes the `ChooseConnection`
marker completes via `done` and hands the socket to the continuation even
when the registry already records an active connection for its peer —
while a writable event under the same registry aborts to the failure
path. -/
theorem C10_read_ignores_registry (cand : ConnectionCandidate) (core : Core)
    (cm : ConnMap) (s : Nat) (e : ConnectionId) (c : Nat)
    (hs : cand.socket = some s) (hcm : cm cand.their_id = some e)
    (hact : e.active_connection = some c) :
    cand.read core cm (ReadResult.msg Message.ChooseConnection) =
      .ok { cand := { cand with socket := none },
            core := coreAfterRemoval cand core, cm := cm,
            trace := [Action.finishCall cand.context (some (s, cand.token))] } ∧
    hasActive cm cand.their_id = true ∧
    (∀ msgp wr, cand.write core cm msgp wr =
        .ok { cand := { cand with socket := none },
              core := coreAfterRemoval cand core,
              cm := endHandshakeUpdate cm cand.their_id,
              trace := [Action.deregister s, Action.finishCall cand.context none] }) := by
  have hact2 : hasActive cm cand.their_id = true := by
    simp [hasActive, hcm, hact]
  refine ⟨?_, hact2, ?_⟩
  · rw [read_choose_eq cand core cm s hs, done_eq cand core cm s hs]
  · intro msgp wr
    rw [write_active_eq cand core cm msgp wr hact2, handle_error_eq cand core cm s hs]

/-- Claim C10 witness: with an active connection recorded for peer 3, the
read path still hands the socket over while the write path aborts. -/
theorem C10_witness :
    (cand0.read core0 cmActive (ReadResult.msg Message.ChooseConnection)).traceOf =
      [Action.finishCall 2 (some (4, 1))] ∧
    (cand0.write core0 cmActive (some (Message.ChooseConnection, 0))
        WriteResult.complete).traceOf =
      [Action.deregister 4, Action.finishCall 2 none] := by
  have h := C10_read_ignores_registry cand0 core0 cmActive 4
    { currently_handshaking := 1, active_connection := some 9 } 9 rfl rfl rfl
  constructor
  · rw [h.1]; rfl
  · rw [h.2.2 (some (Message.ChooseConnection, 0)) WriteResult.complete]; rfl

/-- Claim C5: on a writable event the candidate consults the registry
value current at write time; if an active connection for its peer is
recorded it takes the failure path (terminate and continuation with
`none`) without any socket write, and only when none is recorded does the
non-blocking write happen. -/
theorem C5_write_rechecks_registry (cand : ConnectionCandidate) (core : Core)
    (cm : ConnMap) (msgp : Option (Message × Nat)) (wr : WriteResult) (s : Nat)
    (hs : cand.socket = some s) :
    (hasActive cm cand.their_id = true →
       cand.write core cm msgp wr =
         .ok { cand := { cand with socket := none },
               core := coreAfterRemoval cand core,
               cm := endHandshakeUpdate cm cand.their_id,
               trace := [Action.deregister s, Action.finishCall cand.context none] } ∧
       (∀ tok m, Action.socketWrite tok m ∉ (cand.write core cm msgp wr).traceOf)) ∧
    (hasActive cm cand.their_id = false →
       (cand.write core cm msgp wr).traceOf.head? =
         some (Action.socketWrite cand.token msgp) ∧
       (cand.write core cm msgp wr).isOk = true) := by
  constructor
  · intro hact
    have heq : cand.write core cm msgp wr =
        .ok { cand := { cand with socket := none },
              core := coreAfterRemoval cand core,
              cm := endHandshakeUpdate cm cand.their_id,
              trace := [Action.deregister s, Action.finishCall cand.context none] } := by
      rw [write_active_eq cand core cm msgp wr hact, handle_error_eq cand core cm s hs]
    refine ⟨heq, ?_⟩
    intro tok m
    rw [heq]
    simp [StepRes.traceOf]
  · intro hact
    cases wr with
    | complete => rw [write_complete_eq cand core cm msgp s hs hact]; exact ⟨rfl, rfl⟩
    | blocked => rw [write_blocked_eq cand core cm msgp s hs hact]; exact ⟨rfl, rfl⟩
    | err => rw [write_err_eq cand core cm msgp s hs hact]; exact ⟨rfl, rfl⟩

/-- Claim C5 witness: under an active connection for peer 3 the write path
aborts with no socket write; without one the socket write happens first. -/
theorem C5_witness :
    (cand0.write core0 cmActive (some (Message.ChooseConnection, 0))
        WriteResult.complete).traceOf =
      [Action.deregister 4, Action.finishCall 2 none] ∧
    (Action.socketWrite 1 (some (Message.ChooseConnection, 0)) ∉
      (cand0.write core0 cmActive (some (Message.ChooseConnection, 0))
        WriteResult.complete).traceOf) ∧
    (cand0.write core0 cmOne (some (Message.ChooseConnection, 0))
        WriteResult.complete).traceOf.head? =
      some (Action.socketWrite 1 (some (Message.ChooseConnection, 0))) := by
  have h1 := C5_write_rechecks_registry cand0 core0 cmActive
    (some (Message.ChooseConnection, 0)) WriteResult.complete 4 rfl
  have h2 := C5_write_rechecks_registry cand0 core0 cmOne
    (some (Message.ChooseConnection, 0)) WriteResult.complete 4 rfl
  refine ⟨?_, ?_, (h2.2 rfl).1⟩
  · rw [(h1.1 rfl).1]; rfl
  · exact (h1.1 rfl).2 1 (some (Message.ChooseConnection, 0))

/-- Claim C6: under the precondition that the peer's entry, if present,
has `currently_handshaking ≥ 1`, `terminate` decrements the counter and
removes the entry exactly when the count reaches zero with no active
connection, leaves every other peer untouched, and afterwards an entry
for the peer exists only with `currently_handshaking > 0` or an active
connection recorded. -/
theorem C6_terminate_registry_invariant (cand : ConnectionCandidate)
    (core : Core) (cm : ConnMap) (s : Nat) (hs : cand.socket = some s)
    (_hpre : ∀ e, cm cand.their_id = some e → 1 ≤ e.currently_handshaking) :
    cand.terminate core cm =
      .ok { cand := { cand with socket := none },
            core := coreAfterRemoval cand core,
            cm := endHandshakeUpdate cm cand.their_id,
            trace := [Action.deregister s] } ∧
    (∀ e, endHandshakeUpdate cm cand.their_id cand.their_id = some e →
       0 < e.currently_handshaking ∨ e.active_connection.isSome = true) ∧
    (∀ p, p ≠ cand.their_id → endHandshakeUpdate cm cand.their_id p = cm p) ∧
    (∀ e, cm cand.their_id = some e →
       ((e.currently_handshaking = 1 ∧ e.active_connection = none) →
          endHandshakeUpdate cm cand.their_id cand.their_id = none) ∧
       ((1 < e.currently_handshaking ∨ e.active_connection ≠ none) →
          endHandshakeUpdate cm cand.their_id cand.their_id =
            some { currently_handshaking := e.currently_handshaking - 1,
                   active_connection := e.active_connection })) ∧
    (cm cand.their_id = none →
       endHandshakeUpdate cm cand.their_id cand.their_id = none) := by
  refine ⟨terminate_eq cand core cm s hs, ?_, ?_, ?_, ?_⟩
  · intro e2 he2
    cases hcm : cm cand.their_id with
    | none => simp [endHandshakeUpdate, hcm] at he2
    | some e =>
        by_cases hcond : e.currently_handshaking - 1 = 0 ∧ e.active_connection = none
        · simp [endHandshakeUpdate, hcm, hcond, setMap] at he2
        · simp [endHandshakeUpdate, hcm, hcond, setMap] at he2
          rcases Decidable.not_and_iff_or_not.mp hcond with hc | hc
          · refine Or.inl ?_
            rw [← he2]
            exact Nat.pos_of_ne_zero hc
          · refine Or.inr ?_
            rw [← he2]
            exact Option.isSome_iff_ne_none.mpr hc
  · intro p hp
    cases hcm : cm cand.their_id with
    | none => simp [endHandshakeUpdate, hcm]
    | some e =>
        by_cases hcond : e.currently_handshaking - 1 = 0 ∧ e.active_connection = none
        · simp [endHandshakeUpdate, hcm, hcond, setMap, hp]
        · simp [endHandshakeUpdate, hcm, hcond, setMap, hp]
  · intro e he
    constructor
    · rintro ⟨h1, h2⟩
      simp [endHandshakeUpdate, he, h1, h2, setMap]
    · intro hor
      have hcond : ¬ (e.currently_handshaking - 1 = 0 ∧ e.active_connection = none) := by
        rcases hor with hc | hc
        · rintro ⟨hz, _⟩; omega
        · rintro ⟨_, hn⟩; exact hc hn
      simp [endHandshakeUpdate, he, hcond, setMap]
  · intro hnone
    simp [endHandshakeUpdate, hnone]

/-- Claim C6 witness: terminating the last racing candidate for peer 3
with no active connection removes the registry entry; other peers are
untouched. -/
theorem C6_witness :
    (cand0.terminate core0 cmOne).isOk = true ∧
    (cand0.terminate core0 cmOne).cmAt 3 = none ∧
    (cand0.terminate core0 cmOne).cmAt 7 = cmOne 7 := by
  have h := C6_terminate_registry_invariant cand0 core0 cmOne 4 rfl
    (by intro e he
        have he2 : some { currently_handshaking := 1, active_connection := none } =
            some e := he
        injection he2 with h3
        rw [← h3])
  refine ⟨?_, ?_, ?_⟩
  · rw [h.1]; rfl
  · rw [h.1]
    exact (h.2.2.2.1 { currently_handshaking := 1, active_connection := none } rfl).1
      ⟨rfl, rfl⟩
  · rw [h.1]
    exact h.2.2.1 7 (by decide)

/-- Claim C1 (amended): on the success path `done` the candidate removes
its token → context and context → state entries from the reactor core,
takes ownership of the socket, and invokes the completion continuation
with `Some((socket, token))`; it performs no registry bookkeeping at all —
the registry is returned untouched (no `end_handshake` decrement and no
`set_active`), both being left to the completion continuation. -/
theorem C1_done_success_path (cand : ConnectionCandidate) (core : Core)
    (cm : ConnMap) (s : Nat) (hs : cand.socket = some s) :
    cand.done core cm =
      .ok { cand := { cand with socket := none },
            core := coreAfterRemoval cand core, cm := cm,
            trace := [Action.finishCall cand.context (some (s, cand.token))] } ∧
    (coreAfterRemoval cand core).contexts cand.token = none ∧
    (coreAfterRemoval cand core).states cand.context = none ∧
    (cand.done core cm).cmOf = cm := by
  have h := done_eq cand core cm s hs
  refine ⟨h, ?_, ?_, by rw [h]; rfl⟩
  · simp [coreAfterRemoval, setMap]
  · simp [coreAfterRemoval, setMap]

/-- Claim C1 witness: `done` on a concrete candidate invokes the
continuation with the socket and its token and leaves the registry as it
was. -/
theorem C1_witness :
    (cand0.done core0 cmOne).traceOf = [Action.finishCall 2 (some (4, 1))] ∧
    (cand0.done core0 cmOne).cmOf = cmOne := by
  have h := C1_done_success_path cand0 core0 cmOne 4 rfl
  exact ⟨by rw [h.1]; rfl, h.2.2.2⟩

/-- Claim C1 counterexample: the claim says `done` performs the
`end_handshake` bookkeeping so that after a clean win with one racing
candidate the peer's entry reaches `currently_handshaking = 0` and no
entry remains.  On a concrete clean win (`cmOne` holds the single racing
candidate for peer 3, no active connection) `done` succeeds but the entry
is still present with `currently_handshaking = 1`. -/
theorem C1_counterexample :
    (cand0.done core0 cmOne).isOk = true ∧
    (cand0.done core0 cmOne).cmAt 3 =
      some { currently_handshaking := 1, active_connection := none } ∧
    ¬ (cand0.done core0 cmOne).cmAt 3 = none := by
  refine ⟨rfl, rfl, by decide⟩

/-- Claim C2 (amended): `terminate` is not idempotent: after a first
successful run has moved the socket out of its slot, a second invocation
panics on `expect("Logic Error")` instead of being a no-op — it performs
no second deregistration and no second decrement because the run aborts. -/
theorem C2_terminate_second_call_panics (cand : ConnectionCandidate)
    (core core2 : Core) (cm cm2 : ConnMap) (r : StepOk)
    (h : cand.terminate core cm = .ok r) :
    r.cand.terminate core2 cm2 = .error "Logic Error" ∧
    (r.cand.terminate core2 cm2).traceOf = [] := by
  have hsock : r.cand.socket = none := by
    cases hs : cand.socket with
    | none => rw [terminate_none cand core cm hs] at h; exact Except.noConfusion h
    | some s =>
        rw [terminate_eq cand core cm s hs] at h
        simp only [Except.ok.injEq] at h
        subst h
        rfl
  refine ⟨terminate_none _ _ _ hsock, ?_⟩
  rw [terminate_none _ _ _ hsock]
  rfl

/-- Claim C2 witness: the second `terminate` on a concrete candidate
panics. -/
theorem C2_witness :
    ((cand0.terminate core0 cmOne).candOf.terminate core0 cmOne) =
      .error "Logic Error" := by
  have h := C2_terminate_second_call_panics cand0 core0 core0 cmOne cmOne
    { cand := { cand0 with socket := none },
      core := coreAfterRemoval cand0 core0,
      cm := endHandshakeUpdate cmOne 3,
      trace := [Action.deregister 4] } rfl
  exact h.1

/-- Claim C2 counterexample: the claim says a second `terminate` is a
no-op with no panic or crash.  On a concrete candidate, after the first
`terminate` succeeds, feeding the resulting candidate and state into a
second `terminate` panics (`expect("Logic Error")` on the already-moved
socket). -/
theorem C2_counterexample :
    (cand0.terminate core0 cmOne).isOk = true ∧
    ((cand0.terminate core0 cmOne).candOf.terminate
        (cand0.terminate core0 cmOne).coreOf
        (cand0.terminate core0 cmOne).cmOf).isPanic = true :=
  ⟨rfl, rfl⟩

/-- Claim C3 (amended): the symmetry break in `start` depends only on the
identity comparison: when the local identity is greater than the remote
one the socket is reregistered for write-readiness plus error and hang-up
(and a reregistration failure propagates); otherwise `start` issues no
registration call at all — the candidate keeps the socket's existing
registration and waits for read events. -/
theorem C3_start_symmetry_break (core : Core) (token socket : Nat)
    (cm : ConnMap) (our_id their_id : Nat) :
    (their_id < our_id →
       ConnectionCandidate.start core token socket cm our_id their_id true =
         .ok { context := core.next_context,
               core := coreAfterStart core token socket their_id,
               cm := cm,
               trace := [Action.reregister token EventSet.writableErrorHup] } ∧
       ConnectionCandidate.start core token socket cm our_id their_id false =
         .error ()) ∧
    (¬ their_id < our_id →
       ∀ reregOk,
         ConnectionCandidate.start core token socket cm our_id their_id reregOk =
           .ok { context := core.next_context,
                 core := coreAfterStart core token socket their_id,
                 cm := cm,
                 trace := [] }) ∧
    EventSet.writableErrorHup.writable = true ∧
    EventSet.writableErrorHup.error = true ∧
    EventSet.writableErrorHup.hup = true ∧
    EventSet.writableErrorHup.readable = false := by
  refine ⟨?_, ?_, rfl, rfl, rfl, rfl⟩
  · intro hgt
    exact ⟨start_gt_eq core token socket cm our_id their_id hgt,
      start_gt_fail core token socket cm our_id their_id hgt⟩
  · intro hle reregOk
    exact start_le_eq core token socket cm our_id their_id hle reregOk

/-- Claim C3 witness: with local identity 9 against remote 3 the
write/error/hangup reregistration is issued; with local 3 against remote 9
the trace is empty. -/
theorem C3_witness :
    (ConnectionCandidate.start core0 1 4 cmEmpty 9 3 true).traceOf =
      [Action.reregister 1 EventSet.writableErrorHup] ∧
    (ConnectionCandidate.start core0 1 4 cmEmpty 3 9 true).traceOf = [] := by
  have hA := C3_start_symmetry_break core0 1 4 cmEmpty 9 3
  have hB := C3_start_symmetry_break core0 1 4 cmEmpty 3 9
  constructor
  · rw [(hA.1 (by decide)).1]; rfl
  · rw [hB.2.1 (by decide) true]; rfl

/-- Claim C3 counterexample: the claim says that with the smaller local
identity `start` registers the socket for read-readiness.  With local
identity 1 against remote 2, `start` succeeds with an empty trace: it
issues no registration of any kind. -/
theorem C3_counterexample :
    (ConnectionCandidate.start core0 1 4 cmEmpty 1 2 true).isOk = true ∧
    (ConnectionCandidate.start core0 1 4 cmEmpty 1 2 true).traceOf = [] :=
  ⟨rfl, rfl⟩

/-- Claim C4 (amended): every successful `start` registers the candidate
with the reactor core under the fresh context returned by
`get_new_context` and queues the single pending handshake-acceptance
message `(Message::ChooseConnection, 0)` at creation — but it does not
touch the registry: no `begin_handshake`, the registry is returned
unchanged. -/
theorem C4_start_effects (core : Core) (token socket : Nat) (cm : ConnMap)
    (our_id their_id : Nat) (reregOk : Bool) (r : StartOk)
    (h : ConnectionCandidate.start core token socket cm our_id their_id reregOk =
      .ok r)
    (hfresh : core.states core.next_context = none) :
    r.context = core.next_context ∧
    r.core.contexts token = some core.next_context ∧
    r.core.states core.next_context =
      some { token := token, context := core.next_context, their_id := their_id,
             socket := some socket, msg := some (Message.ChooseConnection, 0) } ∧
    core.states r.context = none ∧
    r.cm = cm := by
  have hr : r = { context := core.next_context,
                  core := coreAfterStart core token socket their_id,
                  cm := cm, trace := r.trace } := by
    by_cases hgt : their_id < our_id
    · cases reregOk with
      | false =>
          rw [start_gt_fail core token socket cm our_id their_id hgt] at h
          exact Except.noConfusion h
      | true =>
          rw [start_gt_eq core token socket cm our_id their_id hgt] at h
          simp only [Except.ok.injEq] at h
          rw [← h]
    · rw [start_le_eq core token socket cm our_id their_id hgt reregOk] at h
      simp only [Except.ok.injEq] at h
      rw [← h]
  rw [hr]
  refine ⟨rfl, ?_, ?_, ?_, rfl⟩
  · simp [coreAfterStart, setMap]
  · simp [coreAfterStart, setMap]
  · exact hfresh

/-- Claim C4 witness: a concrete successful `start` inserts the candidate
under context 5 with its pending message and leaves the registry empty. -/
theorem C4_witness :
    (ConnectionCandidate.start core0 1 4 cmEmpty 5 3 true).isOk = true ∧
    (coreAfterStart core0 1 4 3).contexts 1 = some 5 ∧
    (coreAfterStart core0 1 4 3).states 5 =
      some { token := 1, context := 5, their_id := 3, socket := some 4,
             msg := some (Message.ChooseConnection, 0) } ∧
    (ConnectionCandidate.start core0 1 4 cmEmpty 5 3 true).cmAt 3 = none := by
  have h := C4_start_effects core0 1 4 cmEmpty 5 3 true
    { context := 5, core := coreAfterStart core0 1 4 3, cm := cmEmpty,
      trace := [Action.reregister 1 EventSet.writableErrorHup] } rfl rfl
  refine ⟨rfl, h.2.1, h.2.2.1, ?_⟩
  exact congrFun h.2.2.2.2 3

/-- Claim C4 counterexample: the claim says `start` performs
`begin_handshake`, creating the peer's registry entry if absent.  A
concrete successful `start` against an empty registry leaves the peer
without any entry. -/
theorem C4_counterexample :
    (ConnectionCandidate.start core0 1 4 cmEmpty 5 3 true).isOk = true ∧
    (ConnectionCandidate.start core0 1 4 cmEmpty 5 3 true).cmAt 3 = none := by
  decide

/-- Claim C7: every failure cause — an error or hang-up bit in the
readiness mask, a decoded message other than the acceptance marker, a
decode error, a write error, or supersession by another candidate — takes
one and the same failure path: `terminate` runs, deregistering the socket
exactly once, and the completion continuation is then invoked exactly once
with `none`.  The post-state core no longer maps the candidate's token or
context, so the reactor cannot dispatch to it again, and no single
readiness dispatch ever invokes the continuation more than once. -/
theorem C7_failure_path_unified (cand : ConnectionCandidate) (core : Core)
    (cm : ConnMap) (s : Nat) (hs : cand.socket = some s) :
    (∀ es rr wr, (es.error || es.hup) = true →
       cand.ready core cm es rr wr =
         .ok { cand := { cand with socket := none },
               core := coreAfterRemoval cand core,
               cm := endHandshakeUpdate cm cand.their_id,
               trace := [Action.deregister s, Action.finishCall cand.context none] }) ∧
    (∀ t wr,
       cand.ready core cm
           { readable := true, writable := false, error := false, hup := false }
           (ReadResult.msg (Message.OtherVariant t)) wr =
         .ok { cand := { cand with socket := none },
               core := coreAfterRemoval cand core,
               cm := endHandshakeUpdate cm cand.their_id,
               trace := [Action.deregister s, Action.finishCall cand.context none] }) ∧
    (∀ wr,
       cand.ready core cm
           { readable := true, writable := false, error := false, hup := false }
           ReadResult.err wr =
         .ok { cand := { cand with socket := none },
               core := coreAfterRemoval cand core,
               cm := endHandshakeUpdate cm cand.their_id,
               trace := [Action.deregister s, Action.finishCall cand.context none] }) ∧
    (hasActive cm cand.their_id = false →
       ∀ rr,
         cand.ready core cm
             { readable := false, writable := true, error := false, hup := false }
             rr WriteResult.err =
           .ok { cand := { cand with socket := none, msg := none },
                 core := coreAfterRemoval cand core,
                 cm := endHandshakeUpdate cm cand.their_id,
                 trace := [Action.socketWrite cand.token cand.msg,
                           Action.deregister s,
                           Action.finishCall cand.context none] }) ∧
    (hasActive cm cand.their_id = true →
       ∀ rr wr,
         cand.ready core cm
             { readable := false, writable := true, error := false, hup := false }
             rr wr =
           .ok { cand := { cand with socket := none, msg := none },
                 core := coreAfterRemoval cand core,
                 cm := endHandshakeUpdate cm cand.their_id,
                 trace := [Action.deregister s, Action.finishCall cand.context none] }) ∧
    (coreAfterRemoval cand core).contexts cand.token = none ∧
    (coreAfterRemoval cand core).states cand.context = none ∧
    (∀ es rr wr r, cand.ready core cm es rr wr = .ok r →
       countFinish r.trace ≤ 1) := by
  refine ⟨?_, ?_, ?_, ?_, ?_, ?_, ?_, ?_⟩
  · intro es rr wr hmask
    rw [ready_errhup_eq cand core cm es rr wr hmask,
      handle_error_eq cand core cm s hs]
  · intro t wr
    rw [ready_readable_eq cand core cm (ReadResult.msg (Message.OtherVariant t)) wr,
      read_other_eq cand core cm s t hs, handle_error_eq cand core cm s hs]
  · intro wr
    rw [ready_readable_eq cand core cm ReadResult.err wr,
      read_err_eq cand core cm s hs, handle_error_eq cand core cm s hs]
  · intro hact rr
    rw [ready_writable_eq cand core cm rr WriteResult.err,
      write_err_eq { cand with msg := none } core cm cand.msg s hs hact]
    rfl
  · intro hact rr wr
    rw [ready_writable_eq cand core cm rr wr,
      write_active_eq { cand with msg := none } core cm cand.msg wr hact,
      handle_error_eq { cand with msg := none } core cm s hs]
    rfl
  · simp [coreAfterRemoval, setMap]
  · simp [coreAfterRemoval, setMap]
  · intro es rr wr r h
    exact ready_finish_le_one cand core cm es rr wr r h

/-- Claim C7 witness: each failure trigger on a concrete candidate yields
the single deregistration of socket 4 followed by a single continuation
invocation with `none`, and a concrete successful dispatch invokes the
continuation at most once. -/
theorem C7_witness :
    (cand0.ready core0 cmOne
        { readable := false, writable := false, error := true, hup := false }
        ReadResult.noneYet WriteResult.blocked).traceOf =
      [Action.deregister 4, Action.finishCall 2 none] ∧
    (cand0.ready core0 cmOne
        { readable := true, writable := false, error := false, hup := false }
        (ReadResult.msg (Message.OtherVariant 7)) WriteResult.blocked).traceOf =
      [Action.deregister 4, Action.finishCall 2 none] ∧
    (cand0.ready core0 cmOne
        { readable := true, writable := false, error := false, hup := false }
        ReadResult.err WriteResult.blocked).traceOf =
      [Action.deregister 4, Action.finishCall 2 none] ∧
    (cand0.ready core0 cmOne
        { readable := false, writable := true, error := false, hup := false }
        ReadResult.noneYet WriteResult.err).traceOf =
      [Action.socketWrite 1 (some (Message.ChooseConnection, 0)),
       Action.deregister 4, Action.finishCall 2 none] ∧
    (cand0.ready core0 cmActive
        { readable := false, writable := true, error := false, hup := false }
        ReadResult.noneYet WriteResult.complete).traceOf =
      [Action.deregister 4, Action.finishCall 2 none] ∧
    (coreAfterRemoval cand0 core0).contexts 1 = none ∧
    (coreAfterRemoval cand0 core0).states 2 = none ∧
    countFinish (cand0.ready core0 cmOne
        { readable := true, writable := false, error := false, hup := false }
        (ReadResult.msg Message.ChooseConnection) WriteResult.blocked).traceOf ≤ 1 := by
  have h := C7_failure_path_unified cand0 core0 cmOne 4 rfl
  have h2 := C7_failure_path_unified cand0 core0 cmActive 4 rfl
  refine ⟨?_, ?_, ?_, ?_, ?_, h.2.2.2.2.2.1, h.2.2.2.2.2.2.1, ?_⟩
  · rw [h.1 { readable := false, writable := false, error := true, hup := false }
      ReadResult.noneYet WriteResult.blocked (by decide)]
    rfl
  · rw [h.2.1 7 WriteResult.blocked]; rfl
  · rw [h.2.2.1 WriteResult.blocked]; rfl
  · rw [h.2.2.2.1 (by decide) ReadResult.noneYet]; rfl
  · rw [h2.2.2.2.2.1 (by decide) ReadResult.noneYet WriteResult.complete]; rfl
  · exact h.2.2.2.2.2.2.2
      { readable := true, writable := false, error := false, hup := false }
      (ReadResult.msg Message.ChooseConnection) WriteResult.blocked
      { cand := { cand0 with socket := none },
        core := coreAfterRemoval cand0 core0,
        cm := cmOne,
        trace := [Action.finishCall 2 (some (4, 1))] } rfl

end Crust
